import Mathlib

/-!
Verification of the protection-package scoring engine and the
protection-plan tracking endpoints of the HackaTUM_BE repository
(`src/main.py`, data contracts in `src/schemas.py`).

Modelling conventions:
* Python numbers (`int` values and the results of `/`, Python true
  division) are modelled by `ℚ`; the interaction counters are modelled by
  `ℕ` because `schemas.TrackProtectionPlanCreate` validates every counter
  with `ge=0`.
* Python's `sorted(results, key=lambda x: x["final_score"], reverse=True)`
  is a stable sort by descending key; it is modelled by
  `List.insertionSort` with the relation `b.final_score ≤ a.final_score`,
  which is sorted-descending and stable in the same way.
* A Python function that can raise is modelled with `Option`/`Except`;
  division that would raise `ZeroDivisionError` is modelled by
  `checkedDiv`.
* The database table `track_protection_plans` is modelled as a list of
  rows; SQLAlchemy's `.first()` picks the first matching row and
  `db.add` appends.
-/

/-- One element of the `packages` list consumed by `compute_best_package`
(`main.py`): the dictionary built in `get_best_protection_package` from a
tracking row.  Counters are non-negative integers (`ge=0` in
`schemas.TrackProtectionPlanCreate`). -/
structure TrackingInput where
  protectionPackageId : String
  clickedIncludes : ℕ
  clickedUnIncludes : ℕ
  clickedPriceDistribution : ℕ
  clickedDescription : ℕ
  timeSpendSelected : ℕ
  Selected : ℕ
  Unselected : ℕ
deriving DecidableEq

/-- One element of the `results` list built by `compute_best_package`:
the scored dictionary with the echoed input record. -/
structure ScoredPackage where
  protectionPackageId : String
  final_score : ℚ
  engagement : ℚ
  conversion_rate : ℚ
  consistency : ℚ
  package_data : TrackingInput
deriving DecidableEq

/-- Body of the `for pkg in packages` loop of `compute_best_package`
(`main.py` lines 1271-1296): the engagement / conversion-rate /
consistency / final-score formulas exactly as written in the source. -/
def scorePackage (pkg : TrackingInput) : ScoredPackage :=
  let engagement : ℚ :=
    (pkg.clickedIncludes : ℚ) * 1.5 +
    (pkg.clickedUnIncludes : ℚ) * 1.0 +
    (pkg.clickedPriceDistribution : ℚ) * 2.0 +
    (pkg.clickedDescription : ℚ) * 1.2 +
    (pkg.timeSpendSelected : ℚ) / 10000
  let conversion_rate : ℚ :=
    (pkg.Selected : ℚ) / ((pkg.Selected : ℚ) + (pkg.Unselected : ℚ) + 1)
  let consistency : ℚ :=
    1 - |(pkg.Selected : ℚ) - (pkg.Unselected : ℚ)| /
      ((pkg.Selected : ℚ) + (pkg.Unselected : ℚ) + 1)
  let final_score : ℚ :=
    0.5 * engagement + 0.3 * conversion_rate + 0.2 * consistency
  { protectionPackageId := pkg.protectionPackageId
    final_score := final_score
    engagement := engagement
    conversion_rate := conversion_rate
    consistency := consistency
    package_data := pkg }

/-- Ordering used by `sorted(..., key=lambda x: x["final_score"],
reverse=True)`: `a` precedes `b` when `a`'s final score is at least
`b`'s. -/
def scoreDescRel (a b : ScoredPackage) : Prop :=
  b.final_score ≤ a.final_score

instance : DecidableRel scoreDescRel :=
  fun a b => inferInstanceAs (Decidable (b.final_score ≤ a.final_score))

instance : IsTotal ScoredPackage scoreDescRel :=
  ⟨fun a b => le_total b.final_score a.final_score⟩

instance : IsTrans ScoredPackage scoreDescRel :=
  ⟨fun _ _ _ hab hbc => le_trans hbc hab⟩

/-- `compute_best_package` (`main.py` lines 1259-1299): score every
package, then stably sort by `final_score` descending. -/
def compute_best_package (packages : List TrackingInput) : List ScoredPackage :=
  let results := packages.map scorePackage
  List.insertionSort scoreDescRel results

/-- Python division raising `ZeroDivisionError` on a zero denominator. -/
def checkedDiv (a b : ℚ) : Option ℚ :=
  if b = 0 then none else some (a / b)

/-- Loop body of `compute_best_package` with every division checked, as
Python evaluates it: a zero denominator raises (returns `none`). -/
def scorePackageChecked (pkg : TrackingInput) : Option ScoredPackage := do
  let t ← checkedDiv (pkg.timeSpendSelected : ℚ) 10000
  let engagement : ℚ :=
    (pkg.clickedIncludes : ℚ) * 1.5 +
    (pkg.clickedUnIncludes : ℚ) * 1.0 +
    (pkg.clickedPriceDistribution : ℚ) * 2.0 +
    (pkg.clickedDescription : ℚ) * 1.2 + t
  let conversion_rate ← checkedDiv (pkg.Selected : ℚ)
    ((pkg.Selected : ℚ) + (pkg.Unselected : ℚ) + 1)
  let balance ← checkedDiv |(pkg.Selected : ℚ) - (pkg.Unselected : ℚ)|
    ((pkg.Selected : ℚ) + (pkg.Unselected : ℚ) + 1)
  let consistency : ℚ := 1 - balance
  let final_score : ℚ :=
    0.5 * engagement + 0.3 * conversion_rate + 0.2 * consistency
  some { protectionPackageId := pkg.protectionPackageId
         final_score := final_score
         engagement := engagement
         conversion_rate := conversion_rate
         consistency := consistency
         package_data := pkg }

/-- The `for` loop of `compute_best_package` with checked divisions:
builds `results` in input order, propagating any raised error. -/
def scoreAllChecked : List TrackingInput → Option (List ScoredPackage)
  | [] => some []
  | pkg :: rest => do
    let s ← scorePackageChecked pkg
    let others ← scoreAllChecked rest
    some (s :: others)

/-- `compute_best_package` with every division checked. -/
def compute_best_package_checked (packages : List TrackingInput) :
    Option (List ScoredPackage) := do
  let results ← scoreAllChecked packages
  some (List.insertionSort scoreDescRel results)

/-- The spec's reference engagement formula, written exactly as the spec
states it: `1.5*clicked_includes + 1.0*clicked_un_includes +
2.0*clicked_price_distribution + 1.2*clicked_description +
time_spent_selected_ms/10000`. -/
def spec_engagement (pkg : TrackingInput) : ℚ :=
  1.5 * (pkg.clickedIncludes : ℚ) + 1.0 * (pkg.clickedUnIncludes : ℚ) +
    2.0 * (pkg.clickedPriceDistribution : ℚ) +
    1.2 * (pkg.clickedDescription : ℚ) + (pkg.timeSpendSelected : ℚ) / 10000

/-- The spec's reference conversion-rate formula:
`selected / (selected + unselected + 1)`. -/
def spec_conversion_rate (pkg : TrackingInput) : ℚ :=
  (pkg.Selected : ℚ) / ((pkg.Selected : ℚ) + (pkg.Unselected : ℚ) + 1)

/-- The spec's reference consistency formula:
`1 - |selected - unselected| / (selected + unselected + 1)`. -/
def spec_consistency (pkg : TrackingInput) : ℚ :=
  1 - |(pkg.Selected : ℚ) - (pkg.Unselected : ℚ)| /
    ((pkg.Selected : ℚ) + (pkg.Unselected : ℚ) + 1)

/-- The spec's reference final-score formula:
`0.5*engagement + 0.3*conversion_rate + 0.2*consistency`. -/
def spec_final_score (pkg : TrackingInput) : ℚ :=
  0.5 * spec_engagement pkg + 0.3 * spec_conversion_rate pkg +
    0.2 * spec_consistency pkg

/-- The only caller-facing error of the modelled endpoints: HTTP 404. -/
inductive ApiError where
  | notFound
deriving DecidableEq

/-- A row of the `track_protection_plans` table
(`models.TrackProtectionPlan`), restricted to the fields the endpoints
read and write. -/
structure TrackProtectionPlanRow where
  protection_package_id : String
  clicked_includes : ℕ
  clicked_un_includes : ℕ
  clicked_price_distribution : ℕ
  clicked_description : ℕ
  time_spend_selected : ℕ
  unselected : ℕ
  selected : ℕ
  user_id : ℕ
  booking_id : Option String
deriving DecidableEq

/-- The dictionary `get_best_protection_package` builds from a tracking
row before calling `compute_best_package`. -/
def toPackageData (pkg : TrackProtectionPlanRow) : TrackingInput :=
  { protectionPackageId := pkg.protection_package_id
    clickedIncludes := pkg.clicked_includes
    clickedUnIncludes := pkg.clicked_un_includes
    clickedPriceDistribution := pkg.clicked_price_distribution
    clickedDescription := pkg.clicked_description
    timeSpendSelected := pkg.time_spend_selected
    Selected := pkg.selected
    Unselected := pkg.unselected }

/-- `GET /protection-package/best/{user_id}` (`main.py` lines 1329-1363):
query the user's rows, 404 when there are none, rank, 404 when the
ranking is empty, otherwise answer with the head of the ranking. -/
def get_best_protection_package (user_id : ℕ) (db : List TrackProtectionPlanRow) :
    Except ApiError ScoredPackage :=
  let packages := db.filter (fun r => r.user_id == user_id)
  if packages.isEmpty then Except.error ApiError.notFound
  else
    match compute_best_package (packages.map toPackageData) with
    | [] => Except.error ApiError.notFound
    | best :: _ => Except.ok best

/-- Request body of `POST /track-protection-plan`
(`schemas.TrackProtectionPlanCreate`): counters validated `ge=0`. -/
structure TrackProtectionPlanCreate where
  protectionPackageId : String
  clickedIncludes : ℕ
  clickedUnIncludes : ℕ
  clickedPriceDistribution : ℕ
  clickedDescription : ℕ
  timeSpendSelected : ℕ
  Unselected : ℕ
  Selected : ℕ
  BookingId : Option String
  UserId : ℕ
deriving DecidableEq

/-- The filter of the existing-record query in `track_protection_plan`:
same `protection_package_id` and same `user_id` as the request. -/
def matchesKey (t : TrackProtectionPlanCreate) (r : TrackProtectionPlanRow) : Bool :=
  r.protection_package_id == t.protectionPackageId && r.user_id == t.UserId

/-- The update branch of `track_protection_plan`: overwrite the counter
fields and the booking id of the existing row with the request values. -/
def applyTracking (t : TrackProtectionPlanCreate) (r : TrackProtectionPlanRow) :
    TrackProtectionPlanRow :=
  { r with
    clicked_includes := t.clickedIncludes
    clicked_un_includes := t.clickedUnIncludes
    clicked_price_distribution := t.clickedPriceDistribution
    clicked_description := t.clickedDescription
    time_spend_selected := t.timeSpendSelected
    unselected := t.Unselected
    selected := t.Selected
    booking_id := t.BookingId }

/-- Mutating the row returned by `.first()`: update the first row of the
table that matches the request key, leave every other row unchanged. -/
def updateFirstMatch (t : TrackProtectionPlanCreate) :
    List TrackProtectionPlanRow → List TrackProtectionPlanRow
  | [] => []
  | r :: rs =>
    if matchesKey t r then applyTracking t r :: rs
    else r :: updateFirstMatch t rs

/-- The create branch of `track_protection_plan`: the new
`models.TrackProtectionPlan` row built from the request. -/
def newTracking (t : TrackProtectionPlanCreate) : TrackProtectionPlanRow :=
  { protection_package_id := t.protectionPackageId
    clicked_includes := t.clickedIncludes
    clicked_un_includes := t.clickedUnIncludes
    clicked_price_distribution := t.clickedPriceDistribution
    clicked_description := t.clickedDescription
    time_spend_selected := t.timeSpendSelected
    unselected := t.Unselected
    selected := t.Selected
    user_id := t.UserId
    booking_id := t.BookingId }

/-- `POST /track-protection-plan` (`main.py` lines 1080-1148): 404 when
the user does not exist; otherwise update the first row matching
(`protectionPackageId`, `UserId`) in place, or append a new row when no
row matches.  `users` is the set of existing user ids. -/
def track_protection_plan (users : List ℕ) (t : TrackProtectionPlanCreate)
    (db : List TrackProtectionPlanRow) :
    Except ApiError (List TrackProtectionPlanRow) :=
  if t.UserId ∈ users then
    if db.any (matchesKey t) then Except.ok (updateFirstMatch t db)
    else Except.ok (db ++ [newTracking t])
  else Except.error ApiError.notFound

/-- Number of rows of the table carrying a given
(`protection_package_id`, `user_id`) key. -/
def keyCount (pid : String) (uid : ℕ) (db : List TrackProtectionPlanRow) : ℕ :=
  db.countP (fun r => r.protection_package_id == pid && r.user_id == uid)

/-- Concrete record of the spec's numerical scenario. -/
def pkgC5 : TrackingInput :=
  { protectionPackageId := "1"
    clickedIncludes := 5
    clickedUnIncludes := 2
    clickedPriceDistribution := 3
    clickedDescription := 4
    timeSpendSelected := 571007
    Selected := 10
    Unselected := 5 }

/-- Generic sample record used by witnesses. -/
def pkgW : TrackingInput :=
  { protectionPackageId := "A"
    clickedIncludes := 1
    clickedUnIncludes := 2
    clickedPriceDistribution := 1
    clickedDescription := 1
    timeSpendSelected := 20000
    Selected := 3
    Unselected := 1 }

/-- Sample record with both selection counters zero. -/
def pkgZero : TrackingInput :=
  { protectionPackageId := "Z"
    clickedIncludes := 0
    clickedUnIncludes := 0
    clickedPriceDistribution := 0
    clickedDescription := 0
    timeSpendSelected := 0
    Selected := 0
    Unselected := 0 }

/-- Sample tracking request used by witnesses. -/
def createW : TrackProtectionPlanCreate :=
  { protectionPackageId := "P7"
    clickedIncludes := 4
    clickedUnIncludes := 1
    clickedPriceDistribution := 2
    clickedDescription := 3
    timeSpendSelected := 5000
    Unselected := 1
    Selected := 2
    BookingId := some "b1"
    UserId := 1 }

theorem scorePackage_engagement (pkg : TrackingInput) :
    (scorePackage pkg).engagement =
      (pkg.clickedIncludes : ℚ) * 1.5 + (pkg.clickedUnIncludes : ℚ) * 1.0 +
        (pkg.clickedPriceDistribution : ℚ) * 2.0 +
        (pkg.clickedDescription : ℚ) * 1.2 +
        (pkg.timeSpendSelected : ℚ) / 10000 := rfl

theorem scorePackage_conversion_rate (pkg : TrackingInput) :
    (scorePackage pkg).conversion_rate =
      (pkg.Selected : ℚ) / ((pkg.Selected : ℚ) + (pkg.Unselected : ℚ) + 1) := rfl

theorem scorePackage_consistency (pkg : TrackingInput) :
    (scorePackage pkg).consistency =
      1 - |(pkg.Selected : ℚ) - (pkg.Unselected : ℚ)| /
        ((pkg.Selected : ℚ) + (pkg.Unselected : ℚ) + 1) := rfl

theorem scorePackage_final_score (pkg : TrackingInput) :
    (scorePackage pkg).final_score =
      0.5 * (scorePackage pkg).engagement +
        0.3 * (scorePackage pkg).conversion_rate +
        0.2 * (scorePackage pkg).consistency := rfl

theorem scorePackage_package_data (pkg : TrackingInput) :
    (scorePackage pkg).package_data = pkg := rfl

theorem scorePackage_id (pkg : TrackingInput) :
    (scorePackage pkg).protectionPackageId = pkg.protectionPackageId := rfl

theorem compute_best_package_def (l : List TrackingInput) :
    compute_best_package l = List.insertionSort scoreDescRel (l.map scorePackage) := rfl

theorem filter_orderedInsert_score_eq (q : ℚ) (x : ScoredPackage)
    (hx : x.final_score = q) (l : List ScoredPackage) :
    (List.orderedInsert scoreDescRel x l).filter (fun s => decide (s.final_score = q)) =
      x :: l.filter (fun s => decide (s.final_score = q)) := by
  induction l with
  | nil => simp [hx]
  | cons b l ih =>
    by_cases hb : scoreDescRel x b
    · simp only [List.orderedInsert, if_pos hb]
      simp [hx]
    · have hbq : ¬ b.final_score = q := by
        intro hq
        exact hb (le_of_eq (hq.trans hx.symm))
      simp only [List.orderedInsert, if_neg hb]
      simp [List.filter_cons, hbq, ih]

theorem filter_orderedInsert_score_ne (q : ℚ) (x : ScoredPackage)
    (hx : ¬ x.final_score = q) (l : List ScoredPackage) :
    (List.orderedInsert scoreDescRel x l).filter (fun s => decide (s.final_score = q)) =
      l.filter (fun s => decide (s.final_score = q)) := by
  induction l with
  | nil => simp [hx]
  | cons b l ih =>
    by_cases hb : scoreDescRel x b
    · simp only [List.orderedInsert, if_pos hb]
      simp [List.filter_cons, hx]
    · simp only [List.orderedInsert, if_neg hb]
      simp [List.filter_cons, ih]

theorem checkedDiv_of_ne (a b : ℚ) (hb : b ≠ 0) : checkedDiv a b = some (a / b) := by
  simp [checkedDiv, hb]

theorem score_denom_ne_zero (pkg : TrackingInput) :
    ((pkg.Selected : ℚ) + (pkg.Unselected : ℚ) + 1) ≠ 0 := by
  have h1 : (0 : ℚ) ≤ (pkg.Selected : ℚ) := Nat.cast_nonneg _
  have h2 : (0 : ℚ) ≤ (pkg.Unselected : ℚ) := Nat.cast_nonneg _
  intro h
  linarith

theorem scorePackageChecked_eq (pkg : TrackingInput) :
    scorePackageChecked pkg = some (scorePackage pkg) := by
  have h1 : (10000 : ℚ) ≠ 0 := by norm_num
  have h2 := score_denom_ne_zero pkg
  simp [scorePackageChecked, checkedDiv_of_ne _ _ h1, checkedDiv_of_ne _ _ h2,
    scorePackage]

theorem scoreAllChecked_eq (l : List TrackingInput) :
    scoreAllChecked l = some (l.map scorePackage) := by
  induction l with
  | nil => rfl
  | cons pkg rest ih => simp [scoreAllChecked, scorePackageChecked_eq, ih]

theorem countP_updateFirstMatch (t : TrackProtectionPlanCreate)
    (p : TrackProtectionPlanRow → Bool)
    (hp : ∀ r, p (applyTracking t r) = p r) :
    ∀ db : List TrackProtectionPlanRow,
      (updateFirstMatch t db).countP p = db.countP p := by
  intro db
  induction db with
  | nil => rfl
  | cons r rs ih =>
    by_cases h : matchesKey t r = true
    · simp [updateFirstMatch, h, List.countP_cons, hp]
    · simp [updateFirstMatch, h, List.countP_cons, ih]

theorem length_updateFirstMatch (t : TrackProtectionPlanCreate) :
    ∀ db : List TrackProtectionPlanRow,
      (updateFirstMatch t db).length = db.length := by
  intro db
  induction db with
  | nil => rfl
  | cons r rs ih =>
    by_cases h : matchesKey t r = true
    · simp [updateFirstMatch, h]
    · simp [updateFirstMatch, h, ih]

theorem keyCount_eq_countP_matchesKey (t : TrackProtectionPlanCreate)
    (db : List TrackProtectionPlanRow) :
    keyCount t.protectionPackageId t.UserId db = db.countP (matchesKey t) := rfl

theorem updateFirstMatch_overwrite (t : TrackProtectionPlanCreate) :
    ∀ db : List TrackProtectionPlanRow,
      db.countP (matchesKey t) ≤ 1 →
      ∀ r ∈ updateFirstMatch t db, matchesKey t r = true →
        r.clicked_includes = t.clickedIncludes ∧
        r.clicked_un_includes = t.clickedUnIncludes ∧
        r.clicked_price_distribution = t.clickedPriceDistribution ∧
        r.clicked_description = t.clickedDescription ∧
        r.time_spend_selected = t.timeSpendSelected ∧
        r.unselected = t.Unselected ∧
        r.selected = t.Selected := by
  intro db
  induction db with
  | nil =>
    intro _ r hr
    simp [updateFirstMatch] at hr
  | cons x xs ih =>
    intro hinv r hr hmr
    by_cases hx : matchesKey t x = true
    · have hc : (x :: xs).countP (matchesKey t) = xs.countP (matchesKey t) + 1 := by
        rw [List.countP_cons, hx]
        simp
      have hxs : xs.countP (matchesKey t) = 0 := by omega
      simp only [updateFirstMatch, if_pos hx] at hr
      rcases List.mem_cons.mp hr with h1 | h2
      · subst h1
        exact ⟨rfl, rfl, rfl, rfl, rfl, rfl, rfl⟩
      · exact absurd hmr (by simpa using List.countP_eq_zero.mp hxs r h2)
    · simp only [updateFirstMatch, if_neg hx] at hr
      rcases List.mem_cons.mp hr with h1 | h2
      · subst h1
        exact absurd hmr hx
      · have hc : (x :: xs).countP (matchesKey t) = xs.countP (matchesKey t) := by
          rw [List.countP_cons]
          simp [hx]
        have hxs : xs.countP (matchesKey t) ≤ 1 := by omega
        exact ih hxs r h2 hmr

theorem filter_insertionSort_score (q : ℚ) (l : List ScoredPackage) :
    (List.insertionSort scoreDescRel l).filter (fun s => decide (s.final_score = q)) =
      l.filter (fun s => decide (s.final_score = q)) := by
  induction l with
  | nil => rfl
  | cons x l ih =>
    simp only [List.insertionSort]
    by_cases hx : x.final_score = q
    · rw [filter_orderedInsert_score_eq q x hx, ih]
      simp [List.filter_cons, hx]
    · rw [filter_orderedInsert_score_ne q x hx, ih]
      simp [List.filter_cons, hx]

/-- C1: every record produced by `compute_best_package` satisfies the
spec's reference formulas: its `engagement`, `conversion_rate`,
`consistency` and `final_score` fields equal `spec_engagement`,
`spec_conversion_rate`, `spec_consistency` and `spec_final_score` of the
echoed input record. -/
theorem compute_best_package_matches_spec_formulas (l : List TrackingInput)
    (s : ScoredPackage) (hs : s ∈ compute_best_package l) :
    s.engagement = spec_engagement s.package_data ∧
    s.conversion_rate = spec_conversion_rate s.package_data ∧
    s.consistency = spec_consistency s.package_data ∧
    s.final_score = spec_final_score s.package_data := by
  rw [compute_best_package_def] at hs
  have hmem : s ∈ l.map scorePackage := (List.mem_insertionSort scoreDescRel).mp hs
  obtain ⟨pkg, _, rfl⟩ := List.mem_map.mp hmem
  rw [scorePackage_package_data]
  refine ⟨?_, ?_, ?_, ?_⟩
  · rw [scorePackage_engagement]
    simp only [spec_engagement]
    ring
  · rw [scorePackage_conversion_rate]
    simp only [spec_conversion_rate]
  · rw [scorePackage_consistency]
    simp only [spec_consistency]
  · rw [scorePackage_final_score, scorePackage_engagement,
      scorePackage_conversion_rate, scorePackage_consistency]
    simp only [spec_final_score, spec_engagement, spec_conversion_rate,
      spec_consistency]
    ring

/-- Witness for C1: the spec formulas hold for the output of
`compute_best_package` on the concrete singleton list `[pkgW]`. -/
theorem compute_best_package_matches_spec_formulas_witness :
    (scorePackage pkgW).engagement = spec_engagement (scorePackage pkgW).package_data ∧
    (scorePackage pkgW).conversion_rate = spec_conversion_rate (scorePackage pkgW).package_data ∧
    (scorePackage pkgW).consistency = spec_consistency (scorePackage pkgW).package_data ∧
    (scorePackage pkgW).final_score = spec_final_score (scorePackage pkgW).package_data :=
  compute_best_package_matches_spec_formulas [pkgW] (scorePackage pkgW)
    (by simp [compute_best_package_def, List.mem_insertionSort])

/-- C2: the output of `compute_best_package` is sorted by `final_score`
in non-increasing order, and the packages carrying any given
`final_score` appear in the same relative order as in the (scored) input
list: the sort is stable with no other tie-break. -/
theorem compute_best_package_sorted_stable (l : List TrackingInput)
    (h : l ≠ []) :
    (compute_best_package l).Pairwise
      (fun a b => b.final_score ≤ a.final_score) ∧
    ∀ q : ℚ,
      (compute_best_package l).filter (fun s => decide (s.final_score = q)) =
        (l.map scorePackage).filter (fun s => decide (s.final_score = q)) := by
  constructor
  · exact List.sorted_insertionSort scoreDescRel (l.map scorePackage)
  · intro q
    exact filter_insertionSort_score q (l.map scorePackage)

/-- Witness for C2 at the concrete non-empty list `[pkgW, pkgZero]`. -/
theorem compute_best_package_sorted_stable_witness :
    (compute_best_package [pkgW, pkgZero]).Pairwise
      (fun a b => b.final_score ≤ a.final_score) ∧
    (compute_best_package [pkgW, pkgZero]).filter
        (fun s => decide (s.final_score = 0)) =
      ([pkgW, pkgZero].map scorePackage).filter
        (fun s => decide (s.final_score = 0)) := by
  have h := compute_best_package_sorted_stable [pkgW, pkgZero] (by simp)
  exact ⟨h.1, h.2 0⟩

/-- C4: `compute_best_package` preserves the length of the input and the
multiset of `protectionPackageId` values: no package is dropped,
duplicated or invented. -/
theorem compute_best_package_preserves_ids (l : List TrackingInput)
    (h : l ≠ []) :
    (compute_best_package l).length = l.length ∧
    (((compute_best_package l).map (fun s => s.protectionPackageId) : List String) :
        Multiset String) =
      ((l.map (fun p => p.protectionPackageId) : List String) : Multiset String) := by
  constructor
  · rw [compute_best_package_def, List.length_insertionSort, List.length_map]
  · have hperm := List.perm_insertionSort scoreDescRel (l.map scorePackage)
    have h2 := hperm.map (fun s => s.protectionPackageId)
    rw [List.map_map] at h2
    exact Multiset.coe_eq_coe.mpr h2

/-- Witness for C4 at the concrete non-empty list `[pkgW, pkgZero]`. -/
theorem compute_best_package_preserves_ids_witness :
    (compute_best_package [pkgW, pkgZero]).length =
      ([pkgW, pkgZero] : List TrackingInput).length ∧
    (((compute_best_package [pkgW, pkgZero]).map
        (fun s => s.protectionPackageId) : List String) : Multiset String) =
      (([pkgW, pkgZero].map (fun p => p.protectionPackageId) : List String) :
        Multiset String) :=
  compute_best_package_preserves_ids [pkgW, pkgZero] (by simp)

/-- C5: on the spec's concrete record (clicks 5/2/3/4, time 571007 ms,
selected 10, unselected 5) the scoring loop yields engagement 77.4007,
conversion rate 0.625, consistency 0.6875 and final score 39.02535. -/
theorem compute_best_package_concrete_scenario :
    (scorePackage pkgC5).engagement = 77.4007 ∧
    (scorePackage pkgC5).conversion_rate = 0.625 ∧
    (scorePackage pkgC5).consistency = 0.6875 ∧
    (scorePackage pkgC5).final_score = 39.02535 ∧
    compute_best_package [pkgC5] = [scorePackage pkgC5] := by
  refine ⟨?_, ?_, ?_, ?_, ?_⟩
  · rw [scorePackage_engagement]
    norm_num [pkgC5]
  · rw [scorePackage_conversion_rate]
    norm_num [pkgC5]
  · rw [scorePackage_consistency]
    rw [show |((pkgC5.Selected : ℚ)) - ((pkgC5.Unselected : ℚ))| = 5 by
      norm_num [pkgC5, abs_of_nonneg]]
    norm_num [pkgC5]
  · rw [scorePackage_final_score, scorePackage_engagement,
      scorePackage_conversion_rate, scorePackage_consistency]
    rw [show |((pkgC5.Selected : ℚ)) - ((pkgC5.Unselected : ℚ))| = 5 by
      norm_num [pkgC5, abs_of_nonneg]]
    norm_num [pkgC5]
  · simp [compute_best_package_def]

/-- C6: a package whose `Selected` and `Unselected` counters are both
zero gets `conversion_rate = 0` and `consistency = 1` exactly, thanks to
the `+1` smoothing term in the denominator. -/
theorem compute_best_package_zero_counters (pkg : TrackingInput)
    (hs : pkg.Selected = 0) (hu : pkg.Unselected = 0) :
    (scorePackage pkg).conversion_rate = 0 ∧
    (scorePackage pkg).consistency = 1 := by
  rw [scorePackage_conversion_rate, scorePackage_consistency, hs, hu]
  norm_num

/-- Witness for C6 at the concrete all-zero record `pkgZero`. -/
theorem compute_best_package_zero_counters_witness :
    (scorePackage pkgZero).conversion_rate = 0 ∧
    (scorePackage pkgZero).consistency = 1 :=
  compute_best_package_zero_counters pkgZero rfl rfl

/-- C7: on every non-empty list of well-typed records the checked-division
run of `compute_best_package` succeeds and returns exactly the unchecked
result: no division by zero is possible, every denominator
`Selected + Unselected + 1` being at least 1. -/
theorem compute_best_package_never_fails (l : List TrackingInput)
    (h : l ≠ []) :
    compute_best_package_checked l = some (compute_best_package l) := by
  simp [compute_best_package_checked, scoreAllChecked_eq, compute_best_package_def]

/-- Witness for C7 at the concrete non-empty list `[pkgW]`. -/
theorem compute_best_package_never_fails_witness :
    compute_best_package_checked [pkgW] = some (compute_best_package [pkgW]) :=
  compute_best_package_never_fails [pkgW] (by simp)

/-- C8: `compute_best_package` is deterministic: identical input lists
produce identical output sequences, tie order included. -/
theorem compute_best_package_deterministic (l₁ l₂ : List TrackingInput)
    (h : l₁ = l₂) :
    compute_best_package l₁ = compute_best_package l₂ := by
  rw [h]

/-- Witness for C8 at the concrete list `[pkgW]`. -/
theorem compute_best_package_deterministic_witness :
    compute_best_package [pkgW] = compute_best_package [pkgW] :=
  compute_best_package_deterministic [pkgW] [pkgW] rfl

/-- C10: bounds of the sub-scores computed by the scoring loop:
`0 ≤ conversion_rate < 1`, `0 < consistency ≤ 1`, `engagement ≥ 0`, and
therefore `final_score > 0`. -/
theorem compute_best_package_score_bounds (pkg : TrackingInput) :
    0 ≤ (scorePackage pkg).conversion_rate ∧
    (scorePackage pkg).conversion_rate < 1 ∧
    0 < (scorePackage pkg).consistency ∧
    (scorePackage pkg).consistency ≤ 1 ∧
    0 ≤ (scorePackage pkg).engagement ∧
    0 < (scorePackage pkg).final_score := by
  have hS : (0 : ℚ) ≤ (pkg.Selected : ℚ) := Nat.cast_nonneg _
  have hU : (0 : ℚ) ≤ (pkg.Unselected : ℚ) := Nat.cast_nonneg _
  have hden : (0 : ℚ) < (pkg.Selected : ℚ) + (pkg.Unselected : ℚ) + 1 := by
    linarith
  have hconv0 : 0 ≤ (scorePackage pkg).conversion_rate := by
    rw [scorePackage_conversion_rate]
    exact div_nonneg hS hden.le
  have hconv1 : (scorePackage pkg).conversion_rate < 1 := by
    rw [scorePackage_conversion_rate]
    exact (div_lt_one hden).mpr (by linarith)
  have habs : |(pkg.Selected : ℚ) - (pkg.Unselected : ℚ)| <
      (pkg.Selected : ℚ) + (pkg.Unselected : ℚ) + 1 :=
    abs_lt.mpr ⟨by linarith, by linarith⟩
  have hcons0 : 0 < (scorePackage pkg).consistency := by
    rw [scorePackage_consistency]
    have := (div_lt_one hden).mpr habs
    linarith
  have hcons1 : (scorePackage pkg).consistency ≤ 1 := by
    rw [scorePackage_consistency]
    have := div_nonneg
      (abs_nonneg ((pkg.Selected : ℚ) - (pkg.Unselected : ℚ))) hden.le
    linarith
  have heng : 0 ≤ (scorePackage pkg).engagement := by
    rw [scorePackage_engagement]
    positivity
  have hfinal : 0 < (scorePackage pkg).final_score := by
    rw [scorePackage_final_score]
    have h1 : (0 : ℚ) ≤ 0.5 * (scorePackage pkg).engagement :=
      mul_nonneg (by norm_num) heng
    have h2 : (0 : ℚ) ≤ 0.3 * (scorePackage pkg).conversion_rate :=
      mul_nonneg (by norm_num) hconv0
    have h3 : (0 : ℚ) < 0.2 * (scorePackage pkg).consistency :=
      mul_pos (by norm_num) hcons0
    linarith
  exact ⟨hconv0, hconv1, hcons0, hcons1, heng, hfinal⟩

/-- C3 counterexample: on empty input the scoring core
`compute_best_package` raises nothing and returns the empty ranking —
both the plain and the checked-division runs return `[]` — contradicting
the claim that the ranking operation raises `EmptyInputError` instead of
returning an empty ranking. -/
theorem compute_best_package_empty_returns_empty :
    compute_best_package [] = [] ∧
    compute_best_package_checked [] = some [] :=
  ⟨rfl, rfl⟩

/-- C3 (amended): `compute_best_package` returns `[]` on empty input;
the NotFound condition is signalled by the caller-facing endpoint
`get_best_protection_package`, which errors exactly when the user has no
tracking rows (and `notFound` is its only error kind), so the caller
never receives an empty ranking. -/
theorem get_best_protection_package_notFound_iff (uid : ℕ)
    (db : List TrackProtectionPlanRow) :
    compute_best_package [] = [] ∧
    (get_best_protection_package uid db = Except.error ApiError.notFound ↔
      db.filter (fun r => r.user_id == uid) = []) := by
  refine ⟨rfl, ?_, ?_⟩
  · intro h
    by_contra hne
    have hie : (db.filter (fun r => r.user_id == uid)).isEmpty = false := by
      cases hl : db.filter (fun r => r.user_id == uid) with
      | nil => exact absurd hl hne
      | cons a as => rfl
    have hlen : (compute_best_package
        ((db.filter (fun r => r.user_id == uid)).map toPackageData)).length =
        (db.filter (fun r => r.user_id == uid)).length := by
      rw [compute_best_package_def, List.length_insertionSort,
        List.length_map, List.length_map]
    cases hcb : compute_best_package
        ((db.filter (fun r => r.user_id == uid)).map toPackageData) with
    | nil =>
      rw [hcb] at hlen
      exact hne (List.length_eq_zero.mp hlen.symm)
    | cons b rest =>
      simp [get_best_protection_package, hie, hcb] at h
  · intro h
    simp [get_best_protection_package, h]

/-- C9: `track_protection_plan` keeps at most one tracking row per
(`protectionPackageId`, `UserId`) key.  On success, the key of the
request holds exactly one row, every row carrying that key has its
counters overwritten with the request values (not accumulated), an
existing key leaves the table length unchanged (no new row), and a fresh
key appends exactly the new row. -/
theorem track_protection_plan_upsert (users : List ℕ)
    (t : TrackProtectionPlanCreate) (db db' : List TrackProtectionPlanRow)
    (hinv : ∀ pid uid, keyCount pid uid db ≤ 1)
    (hok : track_protection_plan users t db = Except.ok db') :
    (∀ pid uid, keyCount pid uid db' ≤ 1) ∧
    keyCount t.protectionPackageId t.UserId db' = 1 ∧
    (∀ r ∈ db', matchesKey t r = true →
      r.clicked_includes = t.clickedIncludes ∧
      r.clicked_un_includes = t.clickedUnIncludes ∧
      r.clicked_price_distribution = t.clickedPriceDistribution ∧
      r.clicked_description = t.clickedDescription ∧
      r.time_spend_selected = t.timeSpendSelected ∧
      r.unselected = t.Unselected ∧
      r.selected = t.Selected) ∧
    (db.any (matchesKey t) = true → db'.length = db.length) ∧
    (db.any (matchesKey t) = false → db' = db ++ [newTracking t]) := by
  by_cases hu : t.UserId ∈ users
  · by_cases hex : db.any (matchesKey t) = true
    · have hdb' : db' = updateFirstMatch t db := by
        simp only [track_protection_plan, if_pos hu, if_pos hex,
          Except.ok.injEq] at hok
        exact hok.symm
      subst hdb'
      have hle : db.countP (matchesKey t) ≤ 1 := by
        have := hinv t.protectionPackageId t.UserId
        rwa [keyCount_eq_countP_matchesKey] at this
      refine ⟨?_, ?_, ?_, ?_, ?_⟩
      · intro pid uid
        have hcp := countP_updateFirstMatch t
          (fun r => r.protection_package_id == pid && r.user_id == uid)
          (fun _ => rfl) db
        unfold keyCount
        rw [hcp]
        exact hinv pid uid
      · have hpos : 0 < db.countP (matchesKey t) := by
          rw [List.countP_pos_iff]
          obtain ⟨x, hx, hpx⟩ := List.any_eq_true.mp hex
          exact ⟨x, hx, hpx⟩
        rw [keyCount_eq_countP_matchesKey,
          countP_updateFirstMatch t (matchesKey t) (fun _ => rfl)]
        omega
      · exact updateFirstMatch_overwrite t db hle
      · intro _
        exact length_updateFirstMatch t db
      · intro hfalse
        rw [hfalse] at hex
        exact Bool.noConfusion hex
    · have hexf : db.any (matchesKey t) = false := by
        cases hb : db.any (matchesKey t) with
        | false => rfl
        | true => exact absurd hb hex
      have hzero : db.countP (matchesKey t) = 0 := by
        rw [List.countP_eq_zero]
        intro a ha hpa
        exact hex (List.any_eq_true.mpr ⟨a, ha, hpa⟩)
      have hdb' : db' = db ++ [newTracking t] := by
        simp only [track_protection_plan, if_pos hu, hexf, Bool.false_eq_true,
          if_false, Except.ok.injEq] at hok
        exact hok.symm
      subst hdb'
      have hnewkey : matchesKey t (newTracking t) = true := by
        simp [matchesKey, newTracking]
      refine ⟨?_, ?_, ?_, ?_, ?_⟩
      · intro pid uid
        unfold keyCount
        rw [List.countP_append]
        by_cases hk : ((newTracking t).protection_package_id == pid &&
            (newTracking t).user_id == uid) = true
        · have hk2 : t.protectionPackageId = pid ∧ t.UserId = uid := by
            simpa [newTracking] using hk
        
          obtain ⟨hk1, hk2⟩ := hk2
          subst hk1
          subst hk2
          have h0 : List.countP
              (fun r => r.protection_package_id == t.protectionPackageId &&
                r.user_id == t.UserId) db = 0 := hzero
          have h1 : List.countP
              (fun r => r.protection_package_id == t.protectionPackageId &&
                r.user_id == t.UserId) [newTracking t] = 1 := by
            simp [List.countP_cons, hk]
          omega
        · have h1 : List.countP
              (fun r => r.protection_package_id == pid &&
                r.user_id == uid) [newTracking t] = 0 := by
            simp only [List.countP_cons, List.countP_nil]
            simp [hk]
          have h2 := hinv pid uid
          unfold keyCount at h2
          omega
      · rw [keyCount_eq_countP_matchesKey, List.countP_append, hzero]
        simp [List.countP_cons, hnewkey]
      · intro r hr hmr
        rcases List.mem_append.mp hr with h1 | h2
        · exact absurd (List.any_eq_true.mpr ⟨r, h1, hmr⟩) hex
        · have hrn : r = newTracking t := by simpa using h2
          subst hrn
          exact ⟨rfl, rfl, rfl, rfl, rfl, rfl, rfl⟩
      · intro htrue
        exact absurd htrue hex
      · intro _
        rfl
  · simp only [track_protection_plan, if_neg hu] at hok
    exact Except.noConfusion hok

/-- Witness for C9: inserting a fresh key into the empty table creates
exactly one row for that key. -/
theorem track_protection_plan_upsert_witness :
    keyCount createW.protectionPackageId createW.UserId [newTracking createW] = 1 :=
  (track_protection_plan_upsert [1] createW [] [newTracking createW]
    (by
      intro pid uid
      simp [keyCount])
    (by rfl)).2.1
